import Mathlib

/-!
Verification of the snowfall particle simulation (`snowfall.py`).

The simulation core is embedded shallowly:
* Python floats are modelled as exact rationals (`ℚ`);
* ground-chunk heights are Python ints, modelled as `ℤ`;
* the parallel arrays `sn_*` and `pl_*` are modelled as lists of records
  (`SnowSlot`, `PileSlot`) of the fixed pool lengths;
* the trigonometry lookup tables `SIN_LUT` / `COS_LUT` hold opaque float
  values; the simulation step is parametrised by the tables
  (`sinT cosT : ℕ → ℚ`), while the mathematical contents of the tables are
  described in `ℝ` where a claim depends on the actual sine/cosine values;
* the frame function `run` touches hardware (buttons, clock, drawing);
  only its simulation core (lines 166-306 of the source, the active-stage
  body) is embedded, as `runTick`; randomness is passed in as the record
  `RandIn` of the draws the code makes.
-/

namespace Snowfall

/-! ### Constants (module header of `snowfall.py`) -/

def GRAVITY : ℚ := 8/100
def FRICTION : ℚ := 95/100
def MAX_SNOW : ℕ := 10
def MAX_PILE : ℕ := 200
def ROT_STEPS : ℕ := 126
def MELT_RATE : ℕ := 60
def L_LEFT : ℚ := -45
def L_RIGHT : ℚ := 45
def L_TOP : ℚ := -12
def L_BOT : ℚ := 12

/-! ### Python primitives used by the code -/

/-- Python `int(x)` on a float: truncation toward zero. On a rational
`num/den` (with `den > 0`) that is exactly the T-division of the numerator
by the denominator. `pyInt_eq` below restates it as floor/ceil. -/
def pyInt (x : ℚ) : ℤ := x.num.tdiv x.den

/-- Line 210: `chunk = _int(x) >> 2` — truncate to int, then arithmetic
right shift by 2 (Python `>>` on ints is floor division by 4). -/
def chunkOf (x : ℚ) : ℤ := Int.fdiv (pyInt x) 4

/-! ### Data model: pool slots -/

/-- One slot of the snow pool: the parallel arrays
`sn_act, sn_x, sn_y, sn_vx, sn_vy, sn_px, sn_py` (lines 64-70). -/
structure SnowSlot where
  act : Bool
  x : ℚ
  y : ℚ
  vx : ℚ
  vy : ℚ
  px : ℚ
  py : ℚ
  deriving Repr, DecidableEq

/-- The four edges of the logo box; the code stores them as ints
`0=Top, 1=Bot, 2=Left, 3=Right` (line 77). -/
inductive Edge where
  | top
  | bot
  | left
  | right
  deriving Repr, DecidableEq

/-- One slot of the pile pool: the parallel arrays
`pl_act, pl_rx, pl_ry, pl_sv, pl_edge` (lines 73-77). -/
structure PileSlot where
  act : Bool
  rx : ℚ
  ry : ℚ
  sv : ℚ
  edge : Edge
  deriving Repr, DecidableEq

/-! ### GroundField operations -/

/-- Lines 210-215: the ground-landing test for one flake. Given the ground
array, the computed chunk index and the flake bottom `y + 4`, return the
updated ground array and whether the flake landed. The code guards
`0 <= chunk < _g_chunks` and then `y + 4 >= ground[chunk]`, decrementing
`ground[chunk]` by 4 on success. -/
def tryLand (g : List ℤ) (chunk : ℤ) (fb : ℚ) : List ℤ × Bool :=
  if 0 ≤ chunk ∧ chunk < (g.length : ℤ) then
    if ((g.getD chunk.toNat 0 : ℤ) : ℚ) ≤ fb then
      (g.set chunk.toNat (g.getD chunk.toNat 0 - 4), true)
    else (g, false)
  else (g, false)

/-- Lines 176-177: one column's melt step — if the stored top Y is strictly
above the floor (`< scrH`), push it down by 1. -/
def meltCol (scrH h : ℤ) : ℤ := if h < scrH then h + 1 else h

/-- Lines 174-177: the melt pass over every ground chunk. -/
def meltGround (scrH : ℤ) (g : List ℤ) : List ℤ := g.map (meltCol scrH)

/-- A single ground column's mutation events: a landing attempt by a flake
whose bottom is at `yb` (lines 213-214), or a melt step (lines 176-177). -/
inductive GEvent where
  | land (yb : ℚ)
  | melt
  deriving Repr

/-- Apply one ground event to one column height, exactly as the code does. -/
def applyGEvent (scrH : ℤ) (h : ℤ) : GEvent → ℤ
  | GEvent.land yb => if (h : ℚ) ≤ yb then h - 4 else h
  | GEvent.melt => if h < scrH then h + 1 else h

/-- Fold a sequence of landing/melt events over one column height. -/
def applyGEvents (scrH : ℤ) (h0 : ℤ) (evs : List GEvent) : ℤ :=
  evs.foldl (applyGEvent scrH) h0

/-! ### Rotation -/

/-- Lines 220-221: transform a world offset `(dx, dy)` into the logo's
local frame using the inverse of the current rotation. -/
def rotInv {α : Type} [Field α] (s c dx dy : α) : α × α :=
  (dx * c + dy * s, -dx * s + dy * c)

/-- Lines 293-294 (without the centre offset): forward-rotate a local
point back to a world offset. -/
def rotFwd {α : Type} [Field α] (s c lx ly : α) : α × α :=
  (lx * c - ly * s, lx * s + ly * c)

/-! ### CollisionEngine: body test and edge snapping -/

/-- Line 223: the logo bounding-box test in local coordinates. -/
def inBox (lx ly : ℚ) : Bool :=
  decide (L_LEFT ≤ lx) && decide (lx ≤ L_RIGHT) &&
  decide (L_TOP ≤ ly) && decide (ly ≤ L_BOT)

/-- Lines 224-228: perpendicular distances to the four edges and the
minimum `m = min(dt, db, dl, dr)`, then the `if m == dt ... elif ... else`
chain of lines 234-241 selecting the snapped edge. -/
def selectEdge (lx ly : ℚ) : Edge :=
  let dt := |ly - L_TOP|
  let db := |ly - L_BOT|
  let dl := |lx - L_LEFT|
  let dr := |lx - L_RIGHT|
  let m := min (min (min dt db) dl) dr
  if m = dt then Edge.top
  else if m = db then Edge.bot
  else if m = dl then Edge.left
  else Edge.right

/-- Lines 232-241: the pile slot written on a body collision at local
position `(lx, ly)`: active, `slideVelocity = 0`, snapped onto the
selected edge with the off-edge coordinate clamped to that edge's line. -/
def snapSlot (lx ly : ℚ) : PileSlot :=
  match selectEdge lx ly with
  | Edge.top => ⟨true, lx, L_TOP, 0, Edge.top⟩
  | Edge.bot => ⟨true, lx, L_BOT, 0, Edge.bot⟩
  | Edge.left => ⟨true, L_LEFT, ly, 0, Edge.left⟩
  | Edge.right => ⟨true, L_RIGHT, ly, 0, Edge.right⟩

/-- Lines 230-242: linear scan for the first dormant pile slot; write the
snapped particle there, or do nothing when the pool is exhausted. -/
def allocPile (pile : List PileSlot) (slot : PileSlot) : List PileSlot :=
  match pile.findIdx? (fun q => !q.act) with
  | some p => pile.set p slot
  | none => pile

/-- Lines 300-306 (and lines 180-189 for spawning): linear scan for the
first dormant snow slot; write the flake there, or do nothing when the
pool is exhausted. -/
def allocSnow (snow : List SnowSlot) (f : SnowSlot) : List SnowSlot :=
  match snow.findIdx? (fun q => !q.act) with
  | some i => snow.set i f
  | none => snow

/-- Lines 194-246: one tick of one snow slot — integrate, ground test,
body test, fall-off-screen test — threading the ground array and pile
pool. `s`/`c` are the cached `s_ang`/`c_ang`, `cx`/`cy` the screen
centre, `scrH` the screen height. -/
def flakeStep (scrH : ℤ) (cx cy s c : ℚ) (g : List ℤ) (pile : List PileSlot)
    (f : SnowSlot) : SnowSlot × List ℤ × List PileSlot :=
  if !f.act then (f, g, pile)
  else
    let vy := f.vy + GRAVITY
    let x := f.x + f.vx
    let y := f.y + vy
    let res := tryLand g (chunkOf x) (y + 4)
    if res.2 then
      (⟨false, x, y, f.vx, vy, f.x, f.y⟩, res.1, pile)
    else
      let dx := x - cx
      let dy := y - cy
      let l := rotInv s c dx dy
      if inBox l.1 l.2 then
        (⟨false, x, y, f.vx, vy, f.x, f.y⟩, res.1, allocPile pile (snapSlot l.1 l.2))
      else
        (⟨!decide ((scrH : ℚ) ≤ y), x, y, f.vx, vy, f.x, f.y⟩, res.1, pile)

/-! ### EdgeSlideEngine -/

/-- Lines 261, 268, 275, 282: the sliding-velocity update
`sv = (sv + gAlong) * FRICTION`. -/
def svUpdate (gAlong sv : ℚ) : ℚ := (sv + gAlong) * FRICTION

/-- Lines 295-298: the exit velocity of a particle falling off an edge;
horizontal edges (`Top`/`Bot`) and vertical edges differ. -/
def fallVel (s c sv : ℚ) (e : Edge) : ℚ × ℚ :=
  match e with
  | Edge.top | Edge.bot => (sv * c, sv * s + 1)
  | Edge.left | Edge.right => (-sv * s, sv * c + 1)

/-- Lines 291-298: the snow slot written for a particle falling off the
logo: its stored local position rotated forward to world coordinates plus
the screen centre, with the exit velocity. -/
def fallSpawn (cx cy s c : ℚ) (p : PileSlot) : SnowSlot :=
  let w := rotFwd s c p.rx p.ry
  let v := fallVel s c p.sv p.edge
  ⟨true, w.1 + cx, w.2 + cy, v.1, v.2, w.1 + cx, w.2 + cy⟩

/-- Lines 251-298: one tick of one pile slot. Returns the updated slot and
the flake to re-spawn when the particle fell off (`none` otherwise).
`gx`/`gy` are the rotated gravity projections of lines 248-249. -/
def slideStep (gx gy : ℚ) (p : PileSlot) : PileSlot × Bool :=
  if !p.act then (p, false)
  else
    match p.edge with
    | Edge.top =>
      if gy < 0 then ({ p with act := false }, true)
      else
        let sv := svUpdate gx p.sv
        let rx := p.rx + sv
        let p2 : PileSlot := { p with sv := sv, rx := rx }
        if rx < L_LEFT ∨ L_RIGHT < rx then ({ p2 with act := false }, true)
        else (p2, false)
    | Edge.bot =>
      if 0 < gy then ({ p with act := false }, true)
      else
        let sv := svUpdate gx p.sv
        let rx := p.rx + sv
        let p2 : PileSlot := { p with sv := sv, rx := rx }
        if rx < L_LEFT ∨ L_RIGHT < rx then ({ p2 with act := false }, true)
        else (p2, false)
    | Edge.left =>
      if 0 < gx then ({ p with act := false }, true)
      else
        let sv := svUpdate gy p.sv
        let ry := p.ry + sv
        let p2 : PileSlot := { p with sv := sv, ry := ry }
        if ry < L_TOP ∨ L_BOT < ry then ({ p2 with act := false }, true)
        else (p2, false)
    | Edge.right =>
      if gx < 0 then ({ p with act := false }, true)
      else
        let sv := svUpdate gy p.sv
        let ry := p.ry + sv
        let p2 : PileSlot := { p with sv := sv, ry := ry }
        if ry < L_TOP ∨ L_BOT < ry then ({ p2 with act := false }, true)
        else (p2, false)

/-! ### Whole-tick sequencing -/

/-- Lines 194-246: the collision pass over the whole snow pool, threading
ground and pile. Returns (ground, pile, snow). -/
def collisionPass (scrH : ℤ) (cx cy s c : ℚ) (g : List ℤ)
    (pile : List PileSlot) : List SnowSlot → List ℤ × List PileSlot × List SnowSlot
  | [] => (g, pile, [])
  | f :: fs =>
    let r := flakeStep scrH cx cy s c g pile f
    let rest := collisionPass scrH cx cy s c r.2.1 r.2.2 fs
    (rest.1, rest.2.1, r.1 :: rest.2.2)

/-- Lines 251-306: the edge-slide pass over the whole pile pool, threading
the snow pool for fall-off re-spawns. Returns (snow, pile). -/
def slidePass (cx cy s c gx gy : ℚ) (snow : List SnowSlot) :
    List PileSlot → List SnowSlot × List PileSlot
  | [] => (snow, [])
  | p :: ps =>
    let r := slideStep gx gy p
    let snow2 := if r.2 then allocSnow snow (fallSpawn cx cy s c r.1) else snow
    let rest := slidePass cx cy s c gx gy snow2 ps
    (rest.1, r.1 :: rest.2)

/-- The random draws one tick makes (lines 179-186): the spawn roll
`random.random()`, the spawn X `randrange(0, w)`, and the spawn drift and
fall speeds `uniform(-0.3, 0.3)` / `uniform(0.5, 1.5)`. -/
structure RandIn where
  roll : ℚ
  sx : ℚ
  svx : ℚ
  svy : ℚ

/-- Lines 179-189: the probabilistic spawn of one flake at the top. -/
def spawnSnow (r : RandIn) (snow : List SnowSlot) : List SnowSlot :=
  if r.roll < 2/5 then allocSnow snow ⟨true, r.sx, -5, r.svx, r.svy, r.sx, -5⟩
  else snow

/-- The simulation state mutated by the active-stage tick: the angle index
`state["a_idx"]`, the rotation toggle `state["rot"]`, the frame counter
`state["tick"]`, the ground array `state["ground"]`, and the two pools. -/
structure SimState where
  a_idx : ℕ
  rot : Bool
  tick : ℕ
  ground : List ℤ
  snow : List SnowSlot
  pile : List PileSlot
  deriving Repr, DecidableEq

/-- Lines 166-306: one active-stage simulation tick. The sine/cosine
lookup tables are passed as `sinT`/`cosT`; the code caches
`s_ang = SIN_LUT[a_idx]` and `c_ang = COS_LUT[a_idx]` (lines 166-168)
before the rotation advance of line 192, and both the collision pass and
the slide pass use the cached values. -/
def runTick (sinT cosT : ℕ → ℚ) (scrW scrH : ℤ) (r : RandIn)
    (st : SimState) : SimState :=
  let s := sinT st.a_idx
  let c := cosT st.a_idx
  let tick := st.tick + 1
  let g0 := if tick % MELT_RATE = 0 then meltGround scrH st.ground else st.ground
  let snow0 := spawnSnow r st.snow
  let aIdx2 := if st.rot then (st.a_idx + 1) % ROT_STEPS else st.a_idx
  let cx := ((Int.fdiv scrW 2 : ℤ) : ℚ)
  let cy := ((Int.fdiv scrH 2 : ℤ) : ℚ)
  let cp := collisionPass scrH cx cy s c g0 st.pile snow0
  let gx := s * GRAVITY * 2
  let gy := c * GRAVITY * 2
  let sp := slidePass cx cy s c gx gy cp.2.2 cp.2.1
  { a_idx := aIdx2, rot := st.rot, tick := tick, ground := cp.1,
    snow := sp.1, pile := sp.2 }

/-- Lines 98-116: the reset entry point `start`, restricted to the
simulation state (the drawing and wall-clock side effects are outside the
core). Every snow and pile slot is forced dormant, the ground array is
rebuilt at the floor, and the angle index, rotation toggle and tick
counter are zeroed. `GROUND_CHUNKS = SCREEN_W // 4 + 1` (line 104). -/
def startSim (scrW scrH : ℤ) (st : SimState) : SimState :=
  { a_idx := 0, rot := false, tick := 0,
    ground := List.replicate ((Int.fdiv scrW 4).toNat + 1) scrH,
    snow := st.snow.map (fun f => { f with act := false }),
    pile := st.pile.map (fun p => { p with act := false }) }

/-- Number of active slots in a snow pool. -/
def activeSnow (snow : List SnowSlot) : ℕ := (snow.filter (fun f => f.act)).length

/-- Number of active slots in a pile pool. -/
def activePile (pile : List PileSlot) : ℕ := (pile.filter (fun p => p.act)).length

/-! ### Derived views used to state the claims -/

/-- The perpendicular distance from a local point to one edge of the logo
box (lines 224-227). -/
def edgeDist (lx ly : ℚ) : Edge → ℚ
  | Edge.top => |ly - L_TOP|
  | Edge.bot => |ly - L_BOT|
  | Edge.left => |lx - L_LEFT|
  | Edge.right => |lx - L_RIGHT|

/-- The evaluation order of the edge tests in lines 234-241. -/
def edgeOrder : Edge → ℕ
  | Edge.top => 0
  | Edge.bot => 1
  | Edge.left => 2
  | Edge.right => 3

/-- Line 228: `m = min(dt, db, dl, dr)` (Python `min` folds from the left). -/
def minDist (lx ly : ℚ) : ℚ :=
  min (min (min (edgeDist lx ly Edge.top) (edgeDist lx ly Edge.bot))
    (edgeDist lx ly Edge.left)) (edgeDist lx ly Edge.right)

/-- The coordinate of a pile slot perpendicular to its edge (the one the
snap clamps to the edge's line). -/
def offCoord (p : PileSlot) : ℚ :=
  match p.edge with
  | Edge.top | Edge.bot => p.ry
  | Edge.left | Edge.right => p.rx

/-- The clamped value of the off-edge coordinate for each edge. -/
def edgeBoundary : Edge → ℚ
  | Edge.top => L_TOP
  | Edge.bot => L_BOT
  | Edge.left => L_LEFT
  | Edge.right => L_RIGHT

/-- Scenario A (spec §8): vertical velocity of the flake spawned with
`vy = 0.5` after `k` ticks of the `vy += GRAVITY` update of line 202. -/
def fallVY : ℕ → ℚ
  | 0 => 1/2
  | k+1 => fallVY k + GRAVITY

/-- Scenario A: height of the flake spawned at `y = -5` after `k` ticks of
the `y += vy` update of line 205 (each tick adds the freshly updated
velocity). -/
def fallY : ℕ → ℚ
  | 0 => -5
  | k+1 => fallY k + fallVY (k+1)

/-- Scenario A's ground: the 81 chunks of a 320-wide screen, all at the
same height `hg`. -/
def scenarioG (hg : ℤ) : List ℤ := List.replicate 81 hg

/-- Scenario A: iterate the per-flake tick (`flakeStep`) on the single
flake spawned at `(100, -5)` with `(vx, vy) = (0, 0.5)`, at angle index 0
(`sin = 0`, `cos = 1`), screen 320×240 (centre `(160, 120)`), with an
empty pile pool. -/
def scenarioIter (hg : ℤ) : ℕ → SnowSlot × List ℤ
  | 0 => (⟨true, 100, -5, 0, 1/2, 100, -5⟩, scenarioG hg)
  | k+1 =>
    let r := scenarioIter hg k
    let fr := flakeStep 240 160 120 0 1 r.2 [] r.1
    (fr.1, fr.2.1)

/-- Scenario C: iterate the code's sliding-velocity update (line 261) with
`gAlongHorizontalEdges = 0`. -/
def svIter (sv0 : ℚ) : ℕ → ℚ
  | 0 => sv0
  | k+1 => svUpdate 0 (svIter sv0 k)

/-- The generic shape of lines 228-241: pick from four candidate distances
the first one (in the order top, bottom, left, right) equal to their
minimum. `selectEdge` is exactly this applied to the four edge
distances. -/
def pickMin4 (a b c d : ℚ) : Edge :=
  if min (min (min a b) c) d = a then Edge.top
  else if min (min (min a b) c) d = b then Edge.bot
  else if min (min (min a b) c) d = c then Edge.left
  else Edge.right

/-- The four candidates of `pickMin4` indexed by edge. -/
def dist4 (a b c d : ℚ) : Edge → ℚ
  | Edge.top => a
  | Edge.bot => b
  | Edge.left => c
  | Edge.right => d

end Snowfall

namespace Snowfall

example : chunkOf 100 = 25 := by with_unfolding_all decide
example : chunkOf (-9/2) = -1 := by with_unfolding_all decide
example : Int.floor ((-9/2 : ℚ) / 4) = -2 := by norm_num
example : applyGEvents 240 240 [GEvent.land 240, GEvent.land 236] = 232 := by decide

/-! ### Helper lemmas -/

/-- `pyInt` is the floor on nonnegative rationals. -/
theorem pyInt_eq_floor {x : ℚ} (hx : 0 ≤ x) : pyInt x = ⌊x⌋ := by
  rw [pyInt, Rat.floor_def, Int.tdiv_eq_ediv (Rat.num_nonneg.mpr hx) (Int.ofNat_nonneg x.den)]

/-- For a positive divisor, floor of the quotient equals the integer floor
division of the floor. -/
theorem floor_div_four (x : ℚ) : ⌊x / 4⌋ = ⌊x⌋ / 4 := by
  refine eq_of_forall_le_iff (fun z => ?_)
  rw [Int.le_floor, Int.le_ediv_iff_mul_le (by norm_num : (0:ℤ) < 4), Int.le_floor,
    le_div_iff₀ (by norm_num : (0:ℚ) < 4)]
  push_cast
  exact Iff.rfl

/-- Applying any landing or melt event keeps a column height at or below
the floor value it started at or below. -/
theorem applyGEvents_le (scrH : ℤ) (evs : List GEvent) :
    ∀ h0 : ℤ, h0 ≤ scrH → applyGEvents scrH h0 evs ≤ scrH := by
  induction evs with
  | nil => intro h0 h; simpa [applyGEvents] using h
  | cons e evs ih =>
    intro h0 h
    refine ih _ ?_
    cases e <;> (simp only [applyGEvent]; split <;> omega)

/-! ### C1: ground column height bounds -/

set_option maxRecDepth 100000 in
/-- **C1, counterexample.** The claimed invariant `0 ≤ height` fails: from
the reset height 240, sixty-one successive landings — each by a flake
whose bottom has exactly reached the current pile top, so each satisfies
the landing guard of line 213 — drive the column height to `-4 < 0`. The
code has no lower clamp on `ground[chunk] -= 4` (line 214). -/
theorem ground_lower_bound_cex :
    applyGEvents 240 240
      ((List.range 61).map (fun j => GEvent.land (((240 - 4 * (j : ℤ)) : ℤ) : ℚ))) = -4 ∧
    ¬ (0 ≤ (-4 : ℤ)) := by
  constructor
  · with_unfolding_all decide
  · decide

/-- **C1 (amended).** Every GroundField column height stays at or below
`screenHeight` under every sequence of landings and melts started at or
below `screenHeight`; landing decrements a column by 4 exactly when the
flake bottom has reached it (and leaves it unchanged otherwise); melt
increments by 1 exactly when the height is strictly below `screenHeight`
(and leaves it unchanged otherwise). The lower bound 0 of the original
claim does not hold (see the counterexample): landings can drive a column
height arbitrarily far below 0. -/
theorem ground_bounds_amended (scrH h0 : ℤ) (evs : List GEvent) (h : h0 ≤ scrH) :
    applyGEvents scrH h0 evs ≤ scrH ∧
    (∀ hc : ℤ, ∀ yb : ℚ,
      ((hc : ℚ) ≤ yb → applyGEvent scrH hc (GEvent.land yb) = hc - 4) ∧
      (yb < (hc : ℚ) → applyGEvent scrH hc (GEvent.land yb) = hc)) ∧
    (∀ hc : ℤ,
      (hc < scrH → applyGEvent scrH hc GEvent.melt = hc + 1) ∧
      (scrH ≤ hc → applyGEvent scrH hc GEvent.melt = hc)) := by
  refine ⟨applyGEvents_le scrH evs h0 h, ?_, ?_⟩
  · intro hc yb
    constructor
    · intro hyb; simp [applyGEvent, hyb]
    · intro hyb; simp [applyGEvent, not_le.mpr hyb]
  · intro hc
    constructor
    · intro hhc; simp [applyGEvent, hhc]
    · intro hhc; simp [applyGEvent, not_lt.mpr hhc]

/-- Witness for `ground_bounds_amended` at `screenHeight = 240`, starting
height 240, a single melt event. -/
theorem ground_bounds_amended_w :
    (240 : ℤ) ≤ 240 ∧ applyGEvents 240 240 [GEvent.melt] ≤ 240 :=
  ⟨le_refl _, (ground_bounds_amended 240 240 [GEvent.melt] (le_refl _)).1⟩

/-! ### C2: ground column bucketing -/

/-- **C2, counterexample.** At `x = -4.5` the code (line 210,
`int(x) >> 2`: truncation toward zero, then arithmetic shift) computes
column `-1`, while the claimed `floor(x / 4)` is `-2`. -/
theorem chunk_floor_cex : chunkOf (-9/2) ≠ ⌊((-9 : ℚ) / 2) / 4⌋ := by
  have h1 : chunkOf (-9/2) = -1 := by with_unfolding_all decide
  have h2 : ⌊((-9 : ℚ) / 2) / 4⌋ = -2 := by norm_num
  rw [h1, h2]
  decide

/-- **C2 (amended).** For every nonnegative flake position `x` (fractional
included) the code's bucketing `int(x) >> 2` equals the mathematical
`floor(x / 4)`; for negative fractional `x` the two differ, because
Python's `int()` truncates toward zero before the floor-dividing shift
(see the counterexample). -/
theorem chunk_floor_nonneg (x : ℚ) (hx : 0 ≤ x) : chunkOf x = ⌊x / 4⌋ := by
  rw [chunkOf, pyInt_eq_floor hx, Int.fdiv_eq_ediv _ (by norm_num)]
  exact (floor_div_four x).symm

/-- Witness for `chunk_floor_nonneg` at `x = 100`: the code column and the
mathematical floor both evaluate to 25. -/
theorem chunk_floor_nonneg_w :
    (0 : ℚ) ≤ 100 ∧ chunkOf 100 = ⌊(100 : ℚ) / 4⌋ ∧ chunkOf 100 = 25 :=
  ⟨by norm_num, chunk_floor_nonneg 100 (by norm_num), by with_unfolding_all decide⟩

/-! ### tryLand helper lemmas -/

/-- `tryLand` succeeds exactly when the column is in range and the flake
bottom has reached the stored height. -/
theorem tryLand_succeeds (g : List ℤ) (ch : ℤ) (fb : ℚ) :
    (tryLand g ch fb).2 = true ↔
      (0 ≤ ch ∧ ch < (g.length : ℤ) ∧ ((g.getD ch.toNat 0 : ℤ) : ℚ) ≤ fb) := by
  unfold tryLand
  split_ifs with h1 h2
  · exact ⟨fun _ => ⟨h1.1, h1.2, h2⟩, fun _ => rfl⟩
  · exact ⟨fun hf => hf.elim, fun hc => absurd hc.2.2 h2⟩
  · exact ⟨fun hf => hf.elim, fun hc => absurd ⟨hc.1, hc.2.1⟩ h1⟩

/-- On success `tryLand` decrements the landed column by exactly 4. -/
theorem tryLand_set (g : List ℤ) (ch : ℤ) (fb : ℚ)
    (h : (tryLand g ch fb).2 = true) :
    (tryLand g ch fb).1 = g.set ch.toNat (g.getD ch.toNat 0 - 4) := by
  unfold tryLand at h ⊢
  split_ifs at h ⊢ <;> simp_all

/-- On failure `tryLand` leaves the ground untouched. -/
theorem tryLand_id (g : List ℤ) (ch : ℤ) (fb : ℚ)
    (h : (tryLand g ch fb).2 = false) :
    (tryLand g ch fb).1 = g := by
  unfold tryLand at h ⊢
  split_ifs at h ⊢ <;> simp_all

/-- After a failed ground test, the flake proceeds to the body test: the
ground is unchanged and the flake survives the tick exactly when the body
test misses and it has not fallen past the screen. -/
theorem flakeStep_ground_fail (scrH : ℤ) (cx cy s c : ℚ) (g : List ℤ)
    (pile : List PileSlot) (f : SnowSlot) (hact : f.act = true)
    (hfail : (tryLand g (chunkOf (f.x + f.vx)) (f.y + (f.vy + GRAVITY) + 4)).2 = false) :
    (flakeStep scrH cx cy s c g pile f).2.1 = g ∧
    ((flakeStep scrH cx cy s c g pile f).1.act = true ↔
      (inBox (rotInv s c (f.x + f.vx - cx) (f.y + (f.vy + GRAVITY) - cy)).1
             (rotInv s c (f.x + f.vx - cx) (f.y + (f.vy + GRAVITY) - cy)).2 = false ∧
       f.y + (f.vy + GRAVITY) < (scrH : ℚ))) := by
  have hid := tryLand_id _ _ _ hfail
  unfold flakeStep
  rw [hact]
  simp only [Bool.not_true, Bool.false_eq_true, if_false, hfail, hid]
  split_ifs with hbox
  · simp [hbox]
  · have hb' : inBox (rotInv s c (f.x + f.vx - cx) (f.y + (f.vy + GRAVITY) - cy)).1
        (rotInv s c (f.x + f.vx - cx) (f.y + (f.vy + GRAVITY) - cy)).2 = false := by
      simpa using hbox
    refine ⟨rfl, ?_⟩
    rw [Bool.not_eq_true']
    constructor
    · intro hsc
      exact ⟨hb', by simpa [not_le] using of_decide_eq_false hsc⟩
    · rintro ⟨-, hy⟩
      exact decide_eq_false (not_le.mpr hy)

/-! ### C5: tryLand contract -/

/-- **C5.** `tryLand(column, flakeBottomY)` succeeds iff the column lies in
`[0, chunkCount)` and `flakeBottomY ≥ height[column]`; on success it
decrements that column by exactly 4; on failure (out-of-range column
included) the ground is unchanged and an active flake proceeds to the body
test — it is deactivated this tick only by the body box or by falling past
the screen, never fatally by the failed ground test. -/
theorem tryLand_spec (g : List ℤ) (ch : ℤ) (fb : ℚ) :
    ((tryLand g ch fb).2 = true ↔
      (0 ≤ ch ∧ ch < (g.length : ℤ) ∧ ((g.getD ch.toNat 0 : ℤ) : ℚ) ≤ fb)) ∧
    ((tryLand g ch fb).2 = true →
      (tryLand g ch fb).1 = g.set ch.toNat (g.getD ch.toNat 0 - 4)) ∧
    ((tryLand g ch fb).2 = false → (tryLand g ch fb).1 = g) ∧
    (∀ (scrH : ℤ) (cx cy s c : ℚ) (pile : List PileSlot) (f : SnowSlot),
      f.act = true → ch = chunkOf (f.x + f.vx) → fb = f.y + (f.vy + GRAVITY) + 4 →
      (tryLand g ch fb).2 = false →
      (flakeStep scrH cx cy s c g pile f).2.1 = g ∧
      ((flakeStep scrH cx cy s c g pile f).1.act = true ↔
        (inBox (rotInv s c (f.x + f.vx - cx) (f.y + (f.vy + GRAVITY) - cy)).1
               (rotInv s c (f.x + f.vx - cx) (f.y + (f.vy + GRAVITY) - cy)).2 = false ∧
         f.y + (f.vy + GRAVITY) < (scrH : ℚ)))) := by
  refine ⟨tryLand_succeeds g ch fb, tryLand_set g ch fb, tryLand_id g ch fb, ?_⟩
  intro scrH cx cy s c pile f hact hch hfb hfail
  subst hch hfb
  exact flakeStep_ground_fail scrH cx cy s c g pile f hact hfail

/-- Witness for `tryLand_spec`: on the one-column ground `[240]` a flake
bottom at 250 lands and the column drops to 236; the out-of-range column 5
fails and leaves the ground unchanged. -/
theorem tryLand_spec_w :
    (tryLand [(240 : ℤ)] 0 250).2 = true ∧
    (tryLand [(240 : ℤ)] 0 250).1 = [236] ∧
    (tryLand [(240 : ℤ)] 5 250).1 = [240] := by
  have h := tryLand_spec [(240 : ℤ)] 0 250
  have hs : (tryLand [(240 : ℤ)] 0 250).2 = true :=
    h.1.mpr ⟨by decide, by decide, by with_unfolding_all decide⟩
  have h5 := tryLand_spec [(240 : ℤ)] 5 250
  refine ⟨hs, ?_, ?_⟩
  · have := h.2.1 hs
    simpa using this
  · exact h5.2.2.1 (by decide)

/-! ### Pool-exhaustion helper lemmas -/

/-- When every pile slot is active the allocation scan finds nothing and
leaves the pool untouched. -/
theorem allocPile_full (pile : List PileSlot) (slot : PileSlot)
    (h : ∀ q ∈ pile, q.act = true) : allocPile pile slot = pile := by
  unfold allocPile
  have hnone : pile.findIdx? (fun q => !q.act) = none :=
    List.findIdx?_eq_none_iff.mpr (fun x hx => by simp [h x hx])
  rw [hnone]

/-- When every snow slot is active the allocation scan finds nothing and
leaves the pool untouched. -/
theorem allocSnow_full (snow : List SnowSlot) (f : SnowSlot)
    (h : ∀ q ∈ snow, q.act = true) : allocSnow snow f = snow := by
  unfold allocSnow
  have hnone : snow.findIdx? (fun q => !q.act) = none :=
    List.findIdx?_eq_none_iff.mpr (fun x hx => by simp [h x hx])
  rw [hnone]

/-- A pile particle that falls off this tick always ends the tick
dormant. -/
theorem slideStep_fall (gx gy : ℚ) (p : PileSlot)
    (h : (slideStep gx gy p).2 = true) : (slideStep gx gy p).1.act = false := by
  obtain ⟨act, rx, ry, sv, e⟩ := p
  cases act
  · simp [slideStep] at h
  · cases e <;>
      (simp only [slideStep, Bool.not_true, Bool.false_eq_true, if_false] at h ⊢;
       split_ifs at h ⊢ <;> simp_all)

/-- A body collision with a fully-active pile pool still deactivates the
flake and changes neither the pile nor the ground. -/
theorem flakeStep_pile_full (scrH : ℤ) (cx cy s c : ℚ) (g : List ℤ)
    (pile : List PileSlot) (f : SnowSlot) (hact : f.act = true)
    (hfail : (tryLand g (chunkOf (f.x + f.vx)) (f.y + (f.vy + GRAVITY) + 4)).2 = false)
    (hbox : inBox (rotInv s c (f.x + f.vx - cx) (f.y + (f.vy + GRAVITY) - cy)).1
        (rotInv s c (f.x + f.vx - cx) (f.y + (f.vy + GRAVITY) - cy)).2 = true)
    (hfull : ∀ q ∈ pile, q.act = true) :
    (flakeStep scrH cx cy s c g pile f).1.act = false ∧
    (flakeStep scrH cx cy s c g pile f).2.1 = g ∧
    (flakeStep scrH cx cy s c g pile f).2.2 = pile := by
  have hid := tryLand_id _ _ _ hfail
  unfold flakeStep
  rw [hact]
  simp only [Bool.not_true, Bool.false_eq_true, if_false, hfail, hid, hbox, if_true]
  exact ⟨trivial, trivial, allocPile_full pile _ hfull⟩

/-- The active count never exceeds the pool length. -/
theorem activeSnow_le (snow : List SnowSlot) : activeSnow snow ≤ snow.length :=
  List.length_filter_le _ _

/-- The active count never exceeds the pool length. -/
theorem activePile_le (pile : List PileSlot) : activePile pile ≤ pile.length :=
  List.length_filter_le _ _

/-! ### C3: silent particle loss on slot exhaustion -/

/-- **C3.** With a fully-active pile pool, a body collision still
deactivates the flake while the pile and ground are unchanged (the
particle is silently lost); symmetrically, a pile particle that falls off
with a fully-active snow pool is deactivated while the snow pool is
unchanged. In both cases the active counts stay within `MAX_SNOW` and
`MAX_PILE`. -/
theorem slot_exhaustion
    (scrH : ℤ) (cx cy s c gx gy : ℚ) (g : List ℤ)
    (pile : List PileSlot) (snow : List SnowSlot) (f : SnowSlot) (p : PileSlot)
    (hpl : pile.length = MAX_PILE) (hsl : snow.length = MAX_SNOW)
    (hpf : ∀ q ∈ pile, q.act = true)
    (hsf : ∀ q ∈ snow, q.act = true)
    (hact : f.act = true)
    (hfail : (tryLand g (chunkOf (f.x + f.vx)) (f.y + (f.vy + GRAVITY) + 4)).2 = false)
    (hbox : inBox (rotInv s c (f.x + f.vx - cx) (f.y + (f.vy + GRAVITY) - cy)).1
        (rotInv s c (f.x + f.vx - cx) (f.y + (f.vy + GRAVITY) - cy)).2 = true)
    (hfall : (slideStep gx gy p).2 = true) :
    (flakeStep scrH cx cy s c g pile f).1.act = false ∧
    (flakeStep scrH cx cy s c g pile f).2.2 = pile ∧
    (flakeStep scrH cx cy s c g pile f).2.1 = g ∧
    (slideStep gx gy p).1.act = false ∧
    allocSnow snow (fallSpawn cx cy s c (slideStep gx gy p).1) = snow ∧
    activePile (flakeStep scrH cx cy s c g pile f).2.2 ≤ MAX_PILE ∧
    activeSnow (allocSnow snow (fallSpawn cx cy s c (slideStep gx gy p).1)) ≤ MAX_SNOW := by
  obtain ⟨h1, h2, h3⟩ := flakeStep_pile_full scrH cx cy s c g pile f hact hfail hbox hpf
  have h4 := slideStep_fall gx gy p hfall
  have h5 := allocSnow_full snow (fallSpawn cx cy s c (slideStep gx gy p).1) hsf
  refine ⟨h1, h3, h2, h4, h5, ?_, ?_⟩
  · rw [h3, ← hpl]
    exact activePile_le pile
  · rw [h5, ← hsl]
    exact activeSnow_le snow

set_option maxRecDepth 100000 in
/-- Witness for `slot_exhaustion`: a flake dropped on the box centre of an
unrotated logo with all 200 pile slots busy, and a top-edge particle
falling off (gravity pointing up) with all 10 snow slots busy. -/
theorem slot_exhaustion_w :
    (flakeStep 240 160 120 0 1 []
      (List.replicate 200 ⟨true, 0, -12, 0, Edge.top⟩)
      ⟨true, 160, 120, 0, -8/100, 160, 120⟩).1.act = false ∧
    (flakeStep 240 160 120 0 1 []
      (List.replicate 200 ⟨true, 0, -12, 0, Edge.top⟩)
      ⟨true, 160, 120, 0, -8/100, 160, 120⟩).2.2 =
        List.replicate 200 ⟨true, 0, -12, 0, Edge.top⟩ ∧
    allocSnow (List.replicate 10 ⟨true, 0, 0, 0, 0, 0, 0⟩)
      (fallSpawn 160 120 0 1 (slideStep 0 (-1) ⟨true, 0, -12, 0, Edge.top⟩).1) =
        List.replicate 10 ⟨true, 0, 0, 0, 0, 0, 0⟩ := by
  have h := slot_exhaustion 240 160 120 0 1 0 (-1) []
    (List.replicate 200 ⟨true, 0, -12, 0, Edge.top⟩)
    (List.replicate 10 ⟨true, 0, 0, 0, 0, 0, 0⟩)
    ⟨true, 160, 120, 0, -8/100, 160, 120⟩
    ⟨true, 0, -12, 0, Edge.top⟩
    (by decide) (by decide) (by decide) (by decide) (by decide)
    (by with_unfolding_all decide) (by with_unfolding_all decide)
    (by with_unfolding_all decide)
  exact ⟨h.1, h.2.1, h.2.2.2.2.1⟩

/-! ### Nearest-edge selection helper lemmas -/

/-- The left-folded minimum of four values is one of them. -/
theorem min4_cases (a b c d : ℚ) :
    min (min (min a b) c) d = a ∨ min (min (min a b) c) d = b ∨
    min (min (min a b) c) d = c ∨ min (min (min a b) c) d = d := by
  rcases le_total (min (min a b) c) d with h | h
  · rw [min_eq_left h]
    rcases le_total (min a b) c with h' | h'
    · rw [min_eq_left h']
      rcases le_total a b with h'' | h''
      · rw [min_eq_left h'']
        exact Or.inl rfl
      · rw [min_eq_right h'']
        exact Or.inr (Or.inl rfl)
    · rw [min_eq_right h']
      exact Or.inr (Or.inr (Or.inl rfl))
  · rw [min_eq_right h]
    exact Or.inr (Or.inr (Or.inr rfl))

/-- `pickMin4` returns an edge achieving the minimum, every edge earlier
in the evaluation order is strictly farther, and a top/left tie at the
minimum resolves to top. -/
theorem pickMin4_spec (a b c d : ℚ) :
    dist4 a b c d (pickMin4 a b c d) = min (min (min a b) c) d ∧
    (∀ e : Edge, edgeOrder e < edgeOrder (pickMin4 a b c d) →
      min (min (min a b) c) d < dist4 a b c d e) ∧
    (a = c → a ≤ b → a ≤ d → pickMin4 a b c d = Edge.top) := by
  have h1 : min (min (min a b) c) d ≤ min (min a b) c := min_le_left _ _
  have h2 : min (min a b) c ≤ min a b := min_le_left _ _
  have hma : min (min (min a b) c) d ≤ a := le_trans h1 (le_trans h2 (min_le_left _ _))
  have hmb : min (min (min a b) c) d ≤ b := le_trans h1 (le_trans h2 (min_le_right _ _))
  have hmc : min (min (min a b) c) d ≤ c := le_trans h1 (min_le_right _ _)
  have htop : a = c → a ≤ b → a ≤ d → min (min (min a b) c) d = a := by
    intro hac hab had
    rw [min_eq_left hab, min_eq_left hac.le, min_eq_left had]
  unfold pickMin4
  split_ifs with ha hb hc
  · refine ⟨ha.symm, ?_, fun _ _ _ => rfl⟩
    intro e he
    cases e <;> simp [edgeOrder] at he
  · refine ⟨hb.symm, ?_, fun hac hab had => absurd (htop hac hab had) ha⟩
    intro e he
    cases e with
    | top => exact lt_of_le_of_ne hma ha
    | bot => simp [edgeOrder] at he
    | left => simp [edgeOrder] at he
    | right => simp [edgeOrder] at he
  · refine ⟨hc.symm, ?_, fun hac hab had => absurd (htop hac hab had) ha⟩
    intro e he
    cases e with
    | top => exact lt_of_le_of_ne hma ha
    | bot => exact lt_of_le_of_ne hmb hb
    | left => simp [edgeOrder] at he
    | right => simp [edgeOrder] at he
  · have hd : min (min (min a b) c) d = d := by
      rcases min4_cases a b c d with h | h | h | h
      · exact absurd h ha
      · exact absurd h hb
      · exact absurd h hc
      · exact h
    refine ⟨hd.symm, ?_, fun hac hab had => absurd (htop hac hab had) ha⟩
    intro e he
    cases e with
    | top => exact lt_of_le_of_ne hma ha
    | bot => exact lt_of_le_of_ne hmb hb
    | left => exact lt_of_le_of_ne hmc hc
    | right => simp [edgeOrder] at he

/-! ### C4: nearest-edge snapping with top-first tie-break -/

/-- **C4.** For a flake whose local position lies in the logo rectangle,
the selected edge achieves the minimum perpendicular distance; every edge
earlier in the evaluation order (Top, Bottom, Left, Right) is strictly
farther (first minimum wins); a flake exactly equidistant from Top and
Left (both at the minimum) snaps to Top; and the allocated pile particle
has `slideVelocity = 0`, carries the selected edge, and its off-edge
coordinate is clamped to that edge's boundary. -/
theorem edge_select_spec (lx ly : ℚ) (hin : inBox lx ly = true) :
    edgeDist lx ly (selectEdge lx ly) = minDist lx ly ∧
    (∀ e : Edge, edgeOrder e < edgeOrder (selectEdge lx ly) →
      minDist lx ly < edgeDist lx ly e) ∧
    (edgeDist lx ly Edge.top = edgeDist lx ly Edge.left →
      edgeDist lx ly Edge.top ≤ edgeDist lx ly Edge.bot →
      edgeDist lx ly Edge.top ≤ edgeDist lx ly Edge.right →
      selectEdge lx ly = Edge.top) ∧
    (snapSlot lx ly).act = true ∧
    (snapSlot lx ly).sv = 0 ∧
    (snapSlot lx ly).edge = selectEdge lx ly ∧
    offCoord (snapSlot lx ly) = edgeBoundary (selectEdge lx ly) := by
  have hp := pickMin4_spec (|ly - L_TOP|) (|ly - L_BOT|) (|lx - L_LEFT|) (|lx - L_RIGHT|)
  have hsel : selectEdge lx ly =
      pickMin4 (|ly - L_TOP|) (|ly - L_BOT|) (|lx - L_LEFT|) (|lx - L_RIGHT|) := rfl
  have hed : ∀ e : Edge, edgeDist lx ly e =
      dist4 (|ly - L_TOP|) (|ly - L_BOT|) (|lx - L_LEFT|) (|lx - L_RIGHT|) e := by
    intro e
    cases e <;> rfl
  have hmin : minDist lx ly =
      min (min (min (|ly - L_TOP|) (|ly - L_BOT|)) (|lx - L_LEFT|)) (|lx - L_RIGHT|) := rfl
  refine ⟨?_, ?_, ?_, ?_, ?_, ?_, ?_⟩
  · rw [hed, hsel, hmin]
    exact hp.1
  · intro e he
    rw [hsel] at he
    rw [hed, hmin]
    exact hp.2.1 e he
  · intro hac hab had
    simp only [hed, dist4] at hac hab had
    rw [hsel]
    exact hp.2.2 hac hab had
  · unfold snapSlot
    rcases hc : selectEdge lx ly <;> rfl
  · unfold snapSlot
    rcases hc : selectEdge lx ly <;> rfl
  · unfold snapSlot
    rcases hc : selectEdge lx ly <;> rfl
  · unfold snapSlot offCoord edgeBoundary
    rcases hc : selectEdge lx ly <;> rfl

set_option maxHeartbeats 2000000 in
/-- Witness for `edge_select_spec`: the box centre `(0,0)` (equidistant
from Top and Bottom) snaps to Top, and the point `(-40, -7)` exactly
equidistant from Top and Left (both at distance 5) snaps to Top. -/
theorem edge_select_spec_w :
    inBox 0 0 = true ∧
    edgeDist 0 0 (selectEdge 0 0) = minDist 0 0 ∧
    selectEdge (-40) (-7) = Edge.top := by
  have h1 := edge_select_spec 0 0 (by with_unfolding_all decide)
  have h2 := edge_select_spec (-40) (-7) (by with_unfolding_all decide)
  exact ⟨by with_unfolding_all decide, h1.1,
    h2.2.2.1 (by with_unfolding_all decide) (by with_unfolding_all decide)
      (by with_unfolding_all decide)⟩

/-! ### Sliding-decay helper lemmas -/

/-- Closed form of the iterated velocity update with zero gravity
projection. -/
theorem svIter_closed (sv0 : ℚ) (k : ℕ) : svIter sv0 k = sv0 * FRICTION ^ k := by
  induction k with
  | zero => simp [svIter]
  | succ k ih =>
    show svUpdate 0 (svIter sv0 k) = sv0 * FRICTION ^ (k + 1)
    rw [svUpdate, ih, pow_succ]
    ring

/-! ### C7: top-edge sliding and geometric decay -/

/-- **C7.** An active pile particle on the Top edge (and, symmetrically,
on the Bottom edge) that does not fall off this tick updates
`slideVelocity` to `(slideVelocity + gAlongHorizontalEdges) · FRICTION`
and then advances its local horizontal coordinate by the *new* velocity;
with `gAlongHorizontalEdges = 0` the iterated update is exactly
`sv₀ · FRICTION^k`: it decays geometrically by factor `FRICTION = 0.95`
per tick toward 0 (strictly, when `sv₀ ≠ 0`) and never changes sign. -/
theorem slide_decay (gx gy : ℚ) (p : PileSlot) (sv0 : ℚ) (k : ℕ)
    (hact : p.act = true) (he : p.edge = Edge.top) (hgy : ¬ gy < 0)
    (hstay : ¬ (p.rx + svUpdate gx p.sv < L_LEFT ∨ L_RIGHT < p.rx + svUpdate gx p.sv)) :
    slideStep gx gy p =
      ({ p with sv := svUpdate gx p.sv, rx := p.rx + svUpdate gx p.sv }, false) ∧
    (∀ q : PileSlot, q.act = true → q.edge = Edge.bot → ¬ 0 < gy →
      ¬ (q.rx + svUpdate gx q.sv < L_LEFT ∨ L_RIGHT < q.rx + svUpdate gx q.sv) →
      slideStep gx gy q =
        ({ q with sv := svUpdate gx q.sv, rx := q.rx + svUpdate gx q.sv }, false)) ∧
    svUpdate gx p.sv = (p.sv + gx) * FRICTION ∧
    svIter sv0 k = sv0 * FRICTION ^ k ∧
    (0 < sv0 → 0 < svIter sv0 k) ∧
    (sv0 < 0 → svIter sv0 k < 0) ∧
    (sv0 ≠ 0 → |svIter sv0 (k + 1)| < |svIter sv0 k|) := by
  have hF : (0 : ℚ) < FRICTION := by norm_num [FRICTION]
  have hF1 : FRICTION < 1 := by norm_num [FRICTION]
  have hpk : (0 : ℚ) < FRICTION ^ k := pow_pos hF k
  refine ⟨?_, ?_, rfl, svIter_closed sv0 k, ?_, ?_, ?_⟩
  · obtain ⟨a, rx, ry, sv, e⟩ := p
    cases hact
    cases he
    simp only [slideStep, Bool.not_true, Bool.false_eq_true, if_false]
    rw [if_neg hgy, if_neg hstay]
  · intro q hqact hqe hqgy hqstay
    obtain ⟨a, rx, ry, sv, e⟩ := q
    cases hqact
    cases hqe
    simp only [slideStep, Bool.not_true, Bool.false_eq_true, if_false]
    rw [if_neg hqgy, if_neg hqstay]
  · intro hsv0
    rw [svIter_closed]
    exact mul_pos hsv0 hpk
  · intro hsv0
    rw [svIter_closed]
    exact mul_neg_of_neg_of_pos hsv0 hpk
  · intro hsv0
    have habs : (0 : ℚ) < |sv0| := abs_pos.mpr hsv0
    rw [svIter_closed, svIter_closed, abs_mul, abs_mul,
      abs_of_pos (pow_pos hF (k + 1)), abs_of_pos hpk]
    have : FRICTION ^ (k + 1) < FRICTION ^ k := by
      rw [pow_succ]
      nlinarith
    exact mul_lt_mul_of_pos_left this habs

/-- Witness for `slide_decay`: a top-edge particle at the edge midpoint
with unit sliding velocity, zero edge-parallel gravity. -/
theorem slide_decay_w :
    slideStep 0 (16/100) ⟨true, 0, -12, 1, Edge.top⟩ =
      (⟨true, 0 + svUpdate 0 1, -12, svUpdate 0 1, Edge.top⟩, false) ∧
    svIter 1 3 = 1 * FRICTION ^ 3 := by
  have h := slide_decay 0 (16/100) ⟨true, 0, -12, 1, Edge.top⟩ 1 3 rfl rfl
    (by norm_num) (by norm_num [svUpdate, FRICTION, L_LEFT, L_RIGHT])
  exact ⟨h.1, h.2.2.2.1⟩

/-! ### C8: rotation round-trip -/

/-- **C8.** For every lookup-table index `i` (the tables hold
`sin(i · 0.05)` and `cos(i · 0.05)`, lines 49-52, modelled exactly over
`ℝ`) and every offset `(dx, dy)`, applying the inverse rotation of
lines 220-221 and then the forward rotation of lines 293-294 returns the
original coordinates. -/
theorem lut_roundtrip (i : ℕ) (s c dx dy : ℝ) (hi : i < ROT_STEPS)
    (hs : s = Real.sin (i * (5/100))) (hc : c = Real.cos (i * (5/100))) :
    rotFwd s c (rotInv s c dx dy).1 (rotInv s c dx dy).2 = (dx, dy) := by
  have hsc : s ^ 2 + c ^ 2 = 1 := by
    rw [hs, hc]
    exact Real.sin_sq_add_cos_sq _
  unfold rotFwd rotInv
  simp only [Prod.mk.injEq]
  constructor
  · linear_combination dx * hsc
  · linear_combination dy * hsc

/-- Witness for `lut_roundtrip` at table index 0 (`sin = 0`, `cos = 1`)
and the point `(3, 4)`. -/
theorem lut_roundtrip_w :
    rotFwd (0 : ℝ) 1 (rotInv (0 : ℝ) 1 3 4).1 (rotInv (0 : ℝ) 1 3 4).2 = (3, 4) :=
  lut_roundtrip 0 0 1 3 4 (by norm_num [ROT_STEPS]) (by simp) (by simp)

/-! ### C10: the tick uses the cached angle -/

/-- **C10.** Within one active-stage tick with rotation enabled, the
rotation advance mutates only the stored angle index: the collision pass
and the edge-slide pass use the sine/cosine of the angle index as it was
at the start of the tick. Two sine/cosine tables that agree at the
incoming index produce identical tick results — the values at the
advanced index (or any other index) are never consulted — and the stored
index advances by exactly one step modulo `ROT_STEPS`. -/
theorem tick_cached_angle (s1 c1 s2 c2 : ℕ → ℚ) (scrW scrH : ℤ) (r : RandIn)
    (st : SimState) (hrot : st.rot = true)
    (hs : s1 st.a_idx = s2 st.a_idx) (hc : c1 st.a_idx = c2 st.a_idx) :
    runTick s1 c1 scrW scrH r st = runTick s2 c2 scrW scrH r st ∧
    (runTick s1 c1 scrW scrH r st).a_idx = (st.a_idx + 1) % ROT_STEPS := by
  unfold runTick
  rw [hs, hc, hrot]
  exact ⟨rfl, by simp⟩

/-- Witness for `tick_cached_angle`: two tables that differ everywhere
except at the incoming index 0 give the same tick on an empty-pool
state. -/
theorem tick_cached_angle_w :
    runTick (fun _ => 0) (fun _ => 1) 320 240 ⟨1, 0, 0, 1⟩ ⟨0, true, 0, [], [], []⟩ =
      runTick (fun n => if n = 0 then 0 else 7) (fun n => if n = 0 then 1 else 9)
        320 240 ⟨1, 0, 0, 1⟩ ⟨0, true, 0, [], [], []⟩ ∧
    (runTick (fun _ => 0) (fun _ => 1) 320 240 ⟨1, 0, 0, 1⟩
      ⟨0, true, 0, [], [], []⟩).a_idx = (0 + 1) % ROT_STEPS :=
  tick_cached_angle _ _ _ _ 320 240 _ _ rfl rfl rfl

/-! ### Scenario A helper lemmas -/

/-- The uniform scenario ground reads `hg` at the landing column 25. -/
theorem scenarioG_getD (hg : ℤ) : (scenarioG hg).getD 25 0 = hg := by
  simp [scenarioG, List.getD_eq_getElem?_getD, List.getElem?_replicate]

/-- `tryLand` on the uniform scenario ground at column 25 lands exactly
when the flake bottom has reached `hg`, decrementing that column by 4. -/
theorem tryLand_scenario (hg : ℤ) (fb : ℚ) :
    tryLand (scenarioG hg) 25 fb =
      if (hg : ℚ) ≤ fb then ((scenarioG hg).set 25 (hg - 4), true)
      else (scenarioG hg, false) := by
  unfold tryLand
  have hlen : ((scenarioG hg).length : ℤ) = 81 := by simp [scenarioG]
  rw [hlen, if_pos (by decide : (0 : ℤ) ≤ 25 ∧ (25 : ℤ) < 81)]
  simp only [show Int.toNat 25 = 25 from rfl, scenarioG_getD]

/-- One non-landing tick of the scenario flake: it integrates
`vy += GRAVITY; x += vx; y += vy` and survives, leaving ground and pile
untouched. -/
theorem scenario_step (hg : ℤ) (y vy px py : ℚ)
    (hno : y + (vy + GRAVITY) + 4 < (hg : ℚ))
    (hscr : y + (vy + GRAVITY) < 240) :
    flakeStep 240 160 120 0 1 (scenarioG hg) [] ⟨true, 100, y, 0, vy, px, py⟩ =
      (⟨true, 100, y + (vy + GRAVITY), 0, vy + GRAVITY, 100, y⟩, scenarioG hg, []) := by
  have hx : (100 : ℚ) + 0 = 100 := by norm_num
  have hchunk : chunkOf 100 = 25 := by with_unfolding_all decide
  unfold flakeStep
  simp only [Bool.not_true, Bool.false_eq_true, if_false, hx, hchunk, tryLand_scenario]
  rw [if_neg (not_le.mpr hno)]
  have hbox : inBox ((100 - 160) * 1 + (y + (vy + GRAVITY) - 120) * 0)
      (-(100 - 160) * 0 + (y + (vy + GRAVITY) - 120) * 1) = false := by
    unfold inBox
    rw [decide_eq_false (by norm_num [L_LEFT] :
      ¬ L_LEFT ≤ (100 - 160) * 1 + (y + (vy + GRAVITY) - 120) * 0)]
    simp
  simp only [rotInv, hbox, Bool.false_eq_true, if_false]
  have hscr2 : ¬ (((240 : ℤ) : ℚ) ≤ y + (vy + GRAVITY)) := by
    push_cast
    exact not_le.mpr hscr
  rw [decide_eq_false hscr2]
  rfl

/-- The landing tick of the scenario flake: as soon as the integrated
`y + 4` reaches the column height, the flake is deactivated and column 25
drops by 4. -/
theorem scenario_land (hg : ℤ) (y vy px py : ℚ)
    (htrig : (hg : ℚ) ≤ y + (vy + GRAVITY) + 4) :
    (flakeStep 240 160 120 0 1 (scenarioG hg) [] ⟨true, 100, y, 0, vy, px, py⟩).1.act
        = false ∧
    (flakeStep 240 160 120 0 1 (scenarioG hg) [] ⟨true, 100, y, 0, vy, px, py⟩).2.1
        = (scenarioG hg).set 25 (hg - 4) := by
  have hx : (100 : ℚ) + 0 = 100 := by norm_num
  have hchunk : chunkOf 100 = 25 := by with_unfolding_all decide
  unfold flakeStep
  simp only [Bool.not_true, Bool.false_eq_true, if_false, hx, hchunk, tryLand_scenario]
  rw [if_pos htrig]
  exact ⟨rfl, rfl⟩

/-- Closed form of the velocity recursion `vy += GRAVITY`. -/
theorem fallVY_closed (k : ℕ) : fallVY k = 1/2 + k * GRAVITY := by
  induction k with
  | zero => simp [fallVY]
  | succ k ih =>
    show fallVY k + GRAVITY = 1/2 + (k + 1 : ℕ) * GRAVITY
    rw [ih]
    push_cast
    ring

/-- While no landing has triggered, the scenario flake is exactly the
free-fall state: active at `(100, fallY k)` with velocity
`(0, fallVY k)`, the ground untouched. -/
theorem scenario_inv (hg : ℤ) (hb : hg ≤ 240) :
    ∀ k : ℕ, (∀ j < k + 1, fallY j + 4 < (hg : ℚ)) →
      scenarioIter hg k =
        (⟨true, 100, fallY k, 0, fallVY k, 100, fallY (k - 1)⟩, scenarioG hg) := by
  intro k
  induction k with
  | zero => intro _; rfl
  | succ k ih =>
    intro hnol
    have hprev : ∀ j < k + 1, fallY j + 4 < (hg : ℚ) :=
      fun j hj => hnol j (Nat.lt_succ_of_lt hj)
    have hk1 : fallY (k + 1) + 4 < (hg : ℚ) := hnol (k + 1) (Nat.lt_succ_self _)
    have hgle : (hg : ℚ) ≤ 240 := by exact_mod_cast hb
    have hno : fallY k + (fallVY k + GRAVITY) + 4 < (hg : ℚ) := hk1
    have hscr : fallY k + (fallVY k + GRAVITY) < 240 := by
      have : fallY k + (fallVY k + GRAVITY) + 4 < 240 := lt_of_lt_of_le hk1 hgle
      linarith
    show (let r := scenarioIter hg k
          let fr := flakeStep 240 160 120 0 1 r.2 [] r.1
          (fr.1, fr.2.1)) = _
    rw [ih hprev]
    simp only []
    rw [scenario_step hg (fallY k) (fallVY k) 100 (fallY (k - 1)) hno hscr]
    rfl

/-! ### C6: Scenario A free fall and first-trigger landing -/

/-- **C6.** Each active flake integrates `vy += GRAVITY; x += vx;
y += vy` in that order. The flake spawned at `(100, -5)` with
`(vx, vy) = (0, 0.5)` and `GRAVITY = 0.08` therefore has, after `k` ticks
during which the landing condition has not yet triggered, exactly the
closed-form free-fall position `y = -5 + k·0.5 + 0.08·k(k+1)/2` (still
active, `x = 100`, ground untouched), and it lands — deactivation plus a
4-pixel drop of ground column `25 = column(100)` — exactly at the first
tick where `y + 4` reaches the column height, not before. -/
theorem scenario_freefall (hg : ℤ) (k : ℕ) (hb : hg ≤ 240)
    (hnol : ∀ j < k + 1, fallY j + 4 < (hg : ℚ)) :
    (scenarioIter hg k).1.act = true ∧
    (scenarioIter hg k).1.x = 100 ∧
    (scenarioIter hg k).1.y = fallY k ∧
    (scenarioIter hg k).1.vy = fallVY k ∧
    (scenarioIter hg k).2 = scenarioG hg ∧
    fallY k = -5 + (k : ℚ) * (1/2) + GRAVITY * ((k : ℚ) * ((k : ℚ) + 1)) / 2 ∧
    ((hg : ℚ) ≤ fallY (k + 1) + 4 →
      (scenarioIter hg (k + 1)).1.act = false ∧
      (scenarioIter hg (k + 1)).2 = (scenarioG hg).set 25 (hg - 4)) := by
  have hinv := scenario_inv hg hb k hnol
  have hclosed : ∀ n : ℕ,
      fallY n = -5 + (n : ℚ) * (1/2) + GRAVITY * ((n : ℚ) * ((n : ℚ) + 1)) / 2 := by
    intro n
    induction n with
    | zero => simp [fallY]
    | succ n ih =>
      show fallY n + fallVY (n + 1) = _
      rw [ih, fallVY_closed]
      push_cast
      ring
  refine ⟨by rw [hinv], by rw [hinv], by rw [hinv], by rw [hinv], by rw [hinv],
    hclosed k, ?_⟩
  intro htrig
  have hland := scenario_land hg (fallY k) (fallVY k) 100 (fallY (k - 1)) htrig
  constructor
  · show (let r := scenarioIter hg k
          let fr := flakeStep 240 160 120 0 1 r.2 [] r.1
          (fr.1, fr.2.1)).1.act = false
    rw [hinv]
    exact hland.1
  · show (let r := scenarioIter hg k
          let fr := flakeStep 240 160 120 0 1 r.2 [] r.1
          (fr.1, fr.2.1)).2 = (scenarioG hg).set 25 (hg - 4)
    rw [hinv]
    exact hland.2

/-- Witness for `scenario_freefall` with the ground column raised to
height 0: the flake is still falling after tick 1 (`y + 4 < 0` there) and
lands exactly at tick 2 (`fallY 2 + 4 = 0.24 ≥ 0`), dropping the column
to `-4`. -/
theorem scenario_freefall_w :
    (scenarioIter 0 1).1.act = true ∧
    (scenarioIter 0 1).1.y = fallY 1 ∧
    (scenarioIter 0 2).1.act = false ∧
    (scenarioIter 0 2).2 = (scenarioG 0).set 25 (0 - 4) := by
  have h1 : fallY 1 = -5 + (1/2 + 8/100) := rfl
  have h2 : fallY 2 = -5 + (1/2 + 8/100) + (1/2 + 8/100 + 8/100) := rfl
  have hnol : ∀ j < 2, fallY j + 4 < ((0 : ℤ) : ℚ) := by
    intro j hj
    interval_cases j
    · show fallY 0 + 4 < _
      rw [show fallY 0 = -5 from rfl]
      norm_num
    · rw [h1]
      norm_num
  have h := scenario_freefall 0 1 (by norm_num) hnol
  have hl := h.2.2.2.2.2.2 (by rw [h2]; norm_num)
  exact ⟨h.1, h.2.2.1, hl.1, hl.2⟩

/-! ### C9: reset idempotence -/

/-- **C9.** Invoking the reset (`start`) twice in succession yields a
simulation state identical to invoking it once: the whole `SimState` —
pool activity flags, ground heights, angle index, tick counter — is equal
(the wall-clock `start_time` is outside the simulation state). -/
theorem reset_idem (scrW scrH : ℤ) (st : SimState) :
    startSim scrW scrH (startSim scrW scrH st) = startSim scrW scrH st := by
  unfold startSim
  simp only [List.map_map]
  congr 1

end Snowfall
